import Mathlib

/-!
Verification model of the voice-assistant orchestration core:
the pipeline orchestrator (src/pipeline/orchestrator.py), the intent
detector (src/pipeline/intent.py), the agent graph fallback path
(src/agents/orchestrator.py) and the conversation-history handling of
the response-generation wrapper (src/llm/qwen.py).

External engines (speech recognition, translation, chat generation,
speech synthesis) are modelled as oracles returning `Except String α`,
where `Except.error msg` stands for the engine raising an exception
whose text is `msg`.  Elapsed wall-clock durations are supplied as a
`Times` environment of natural numbers.  Python dictionaries are
modelled as insertion-ordered association lists, matching dict
iteration order; Python truthiness of optional strings is modelled
explicitly (absent or empty means falsy).
-/

/-- ASCII model of Python `str.lower` on a single character. -/
def lowerChar (c : Char) : Char :=
  if 65 ≤ c.toNat ∧ c.toNat ≤ 90 then Char.ofNat (c.toNat + 32) else c

/-- Model of Python `str.lower` (ASCII range; all inputs considered are ASCII). -/
def pyLower (s : String) : String :=
  String.mk (s.data.map lowerChar)

/-- Character-list prefix test used to model Python substring membership. -/
def startsWithCL : List Char → List Char → Bool
  | [], _ => true
  | _ :: _, [] => false
  | a :: as, b :: bs => a == b && startsWithCL as bs

/-- Character-list contiguous-substring test. -/
def containsCL (needle : List Char) : List Char → Bool
  | [] => startsWithCL needle []
  | b :: t => startsWithCL needle (b :: t) || containsCL needle t

/-- Model of the Python membership test `needle in hay` on strings. -/
def pyIn (needle hay : String) : Bool :=
  containsCL needle.data hay.data

/-- Model of Python dict assignment `d[k] = v`: an existing key keeps its
position and gets the new value, a fresh key is appended at the end. -/
def dictSet (d : List (String × String)) (k v : String) : List (String × String) :=
  if d.any (fun p => p.1 == k) then d.map (fun p => if p.1 == k then (k, v) else p)
  else d ++ [(k, v)]

/-- ASCII whitespace for the model of Python `str.strip`. -/
def isPySpace (c : Char) : Bool :=
  c.toNat == 32 || c.toNat == 9 || c.toNat == 10 || c.toNat == 13 || c.toNat == 11 || c.toNat == 12

/-- Model of Python `str.strip()`: whitespace removed from both ends. -/
def pyStrip (s : String) : String :=
  String.mk (((s.data.dropWhile isPySpace).reverse.dropWhile isPySpace).reverse)

/-- Model of Python `str.startswith`. -/
def pyStartsWith (s pre : String) : Bool :=
  startsWithCL pre.data s.data

/-- Left-to-right non-overlapping replacement, fuelled by the input
length (one character is consumed per step, so the fuel never runs out
on the intended call). -/
def replaceFuel (pat rep : List Char) : Nat → List Char → List Char
  | _, [] => []
  | 0, l => l
  | fuel + 1, c :: rest =>
    if !pat.isEmpty && startsWithCL pat (c :: rest) then
      rep ++ replaceFuel pat rep fuel ((c :: rest).drop pat.length)
    else c :: replaceFuel pat rep fuel rest

/-- Model of Python `s.replace(pat, rep)` (replace every occurrence,
left to right, non-overlapping). -/
def pyReplace (s pat rep : String) : String :=
  String.mk (replaceFuel pat.data rep.data s.data.length s.data)

/-- Splitting on every separator occurrence, fuelled as above. -/
def splitFuel (sep : List Char) : Nat → List Char → List Char → List (List Char)
  | _, acc, [] => [acc.reverse]
  | 0, acc, l => [acc.reverse ++ l]
  | fuel + 1, acc, c :: rest =>
    if !sep.isEmpty && startsWithCL sep (c :: rest) then
      acc.reverse :: splitFuel sep fuel [] ((c :: rest).drop sep.length)
    else splitFuel sep fuel (c :: acc) rest

/-- Model of Python `s.split(sep)` for a non-empty separator. -/
def pySplit (s sep : String) : List String :=
  (splitFuel sep.data s.data.length [] s.data).map String.mk

/-- First-occurrence split, fuelled as above. -/
def splitOnceFuel (sep : List Char) : Nat → List Char → List Char → Option (List Char × List Char)
  | _, _, [] => none
  | 0, _, _ => none
  | fuel + 1, acc, c :: rest =>
    if !sep.isEmpty && startsWithCL sep (c :: rest) then
      some (acc.reverse, (c :: rest).drop sep.length)
    else splitOnceFuel sep fuel (c :: acc) rest

/-- Model of Python `s.split(sep, 1)` when `sep` occurs in `s`
(together with the `sep in s` guard: `none` exactly when it does not). -/
def pySplitOnce (s sep : String) : Option (String × String) :=
  (splitOnceFuel sep.data s.data.length [] s.data).map
    (fun p => (String.mk p.1, String.mk p.2))

/-! ## Intent detection (src/pipeline/intent.py) -/

/-- The `IntentType` enum, constructors in source declaration order. -/
inductive IntentType where
  | greeting
  | question
  | command
  | information
  | task
  | weather
  | time
  | reminder
  | calculation
  | translation
  | general
  | unknown
deriving DecidableEq, Repr

/-- The `.value` string of each `IntentType` member. -/
def IntentType.value : IntentType → String
  | .greeting => "greeting"
  | .question => "question"
  | .command => "command"
  | .information => "information"
  | .task => "task"
  | .weather => "weather"
  | .time => "time"
  | .reminder => "reminder"
  | .calculation => "calculation"
  | .translation => "translation"
  | .general => "general"
  | .unknown => "unknown"

/-- Model of the `IntentType(value)` enum constructor: `some` on a valid
value string, `none` where Python raises `ValueError`. -/
def intentTypeOfString : String → Option IntentType
  | "greeting" => some .greeting
  | "question" => some .question
  | "command" => some .command
  | "information" => some .information
  | "task" => some .task
  | "weather" => some .weather
  | "time" => some .time
  | "reminder" => some .reminder
  | "calculation" => some .calculation
  | "translation" => some .translation
  | "general" => some .general
  | "unknown" => some .unknown
  | _ => none

/-- The `Intent` dataclass. -/
structure DetectedIntent where
  type : IntentType
  confidence : ℚ
  entities : List (String × String)
  original_text : String
  english_text : String
  description : String
deriving DecidableEq, Repr

/-- `IntentDetector.INTENT_PATTERNS`, in dict insertion order. -/
def INTENT_PATTERNS : List (IntentType × List String) :=
  [(.greeting, ["hello", "hi", "hey", "good morning", "good evening",
      "namaste", "how are you", "what\x27s up"]),
   (.weather, ["weather", "temperature", "rain", "sunny", "cloudy",
      "forecast", "climate", "hot", "cold"]),
   (.time, ["time", "what time", "clock", "hour", "date", "today",
      "day", "month", "year"]),
   (.reminder, ["remind", "reminder", "alarm", "schedule", "appointment",
      "notify", "alert", "set reminder"]),
   (.calculation, ["calculate", "math", "plus", "minus", "multiply", "divide",
      "sum", "total", "percentage", "how much is"]),
   (.question, ["what", "who", "where", "when", "why", "how", "which",
      "is it", "are you", "can you", "could you", "tell me"]),
   (.command, ["turn on", "turn off", "switch", "open", "close",
      "start", "stop", "play", "pause", "set"])]

/-- `sum(1 for kw in keywords if kw in text_lower)`. -/
def keywordScoreOn (textLower : String) (kws : List String) : Nat :=
  kws.countP (fun kw => pyIn kw textLower)

/-- The `scores` dict of `_keyword_detect`: positive-scoring categories,
in pattern-table insertion order. -/
def scoresList (text : String) : List (IntentType × Nat) :=
  (INTENT_PATTERNS.map (fun p => (p.1, keywordScoreOn (pyLower text) p.2))).filter
    (fun p => decide (0 < p.2))

/-- Model of Python `max(..., key=...)` over a nonempty association list:
the current best is replaced only on a strictly greater value, so the
first maximal entry wins. -/
def maxKeyAux (best : IntentType × Nat) : List (IntentType × Nat) → IntentType × Nat
  | [] => best
  | p :: rest => maxKeyAux (if best.2 < p.2 then p else best) rest

/-- `IntentDetector._keyword_detect`. -/
def keywordDetect (text : String) : Option IntentType :=
  match scoresList text with
  | [] => none
  | p :: rest => some (maxKeyAux p rest).1

/-- `IntentDetector._get_intent_description` (the `descriptions` dict plus
its `"General query"` default). -/
def intentDescription : IntentType → String
  | .greeting => "User is greeting or starting a conversation"
  | .weather => "User is asking about weather or climate"
  | .time => "User is asking about time or date"
  | .reminder => "User wants to set a reminder or alarm"
  | .calculation => "User wants to perform a calculation"
  | .question => "User is asking a question"
  | .command => "User is giving a command or instruction"
  | .general => "General conversation or query"
  | _ => "General query"

/-- A chat-engine handle: maps the prompt to the generated content, or
raises. -/
abbrev ChatFn := String → Except String String

/-- `english_text.lower() if english_text else text.lower()` (Python
truthiness: an absent or empty translation falls back to `text`). -/
def analysisText (text : String) (etext : Option String) : String :=
  match etext with
  | some s => if s.isEmpty then pyLower text else pyLower s
  | none => pyLower text

/-- Python `english_text or text`. -/
def pyOr (etext : Option String) (text : String) : String :=
  match etext with
  | some s => if s.isEmpty then text else s
  | none => text

/-- The prompt `_llm_detect` sends to the chat engine. -/
def classifyPrompt (english : String) : String :=
  ("Classify this user message: \"") ++ english ++ ("\"")

/-- `IntentDetector._get_llm`: a missing handle is constructed lazily when
`use_llm` is enabled; the construction itself can raise, and that raise is
not caught anywhere in `detect`/`_llm_detect`. -/
def getLLM (useLLM : Bool) (h : Option ChatFn) (mk : Except String ChatFn) :
    Except String (Option ChatFn) :=
  match h with
  | some f => .ok (some f)
  | none =>
    if useLLM then
      match mk with
      | .ok f => .ok (some f)
      | .error e => .error e
    else .ok none

/-- The `ENTITIES:` line parser: comma-separated pairs, split at the first
colon, both sides stripped, assigned into the entities dict. -/
def parseEntityPairs (d0 : List (String × String)) (s : String) : List (String × String) :=
  (pySplit s (",")).foldl
    (fun d pair =>
      match pySplitOnce pair (":") with
      | some (k, v) => dictSet d (pyStrip k) (pyStrip v)
      | none => d)
    d0

/-- One iteration of the line loop in `_parse_llm_response`, acting on the
accumulator (intent type, entities, description). -/
def parseStep (acc : IntentType × List (String × String) × String) (line0 : String) :
    IntentType × List (String × String) × String :=
  let line := pyStrip line0
  if pyStartsWith line ("INTENT:") then
    (((intentTypeOfString (pyLower (pyStrip (pyReplace line ("INTENT:") (""))))).getD .general),
      acc.2.1, acc.2.2)
  else if pyStartsWith line ("ENTITIES:") then
    let es := pyStrip (pyReplace line ("ENTITIES:") (""))
    if pyLower es == "none" then acc
    else (acc.1, parseEntityPairs acc.2.1 es, acc.2.2)
  else if pyStartsWith line ("DESCRIPTION:") then
    (acc.1, acc.2.1, pyStrip (pyReplace line ("DESCRIPTION:") ("")))
  else acc

/-- The line loop of `_parse_llm_response`. -/
def parseLines : List String → (IntentType × List (String × String) × String) →
    IntentType × List (String × String) × String
  | [], acc => acc
  | l :: ls, acc => parseLines ls (parseStep acc l)

/-- `IntentDetector._parse_llm_response`: defaults are `general`,
no entities, description `"General query"`; the confidence of a parsed
response is always `0.85`. -/
def parseLLMResponse (response original english : String) : DetectedIntent :=
  let acc := parseLines (pySplit (pyStrip response) ("\n")) (.general, [], ("General query"))
  { type := acc.1
    confidence := 0.85
    entities := acc.2.1
    original_text := original
    english_text := english
    description := acc.2.2 }

/-- `IntentDetector._llm_detect`.  Only the chat call itself (and the
parsing of its output) is inside the `try`; `_get_llm` runs before it and
its errors propagate. -/
def llmDetect (useLLM : Bool) (h : Option ChatFn) (mk : Except String ChatFn)
    (original english : String) : Except String DetectedIntent :=
  match getLLM useLLM h mk with
  | .error e => .error e
  | .ok none =>
    .ok { type := .general, confidence := 0.5, entities := [],
          original_text := original, english_text := english,
          description := ("General query") }
  | .ok (some chatF) =>
    match chatF (classifyPrompt english) with
    | .error _ =>
      .ok { type := .general, confidence := 0.5, entities := [],
            original_text := original, english_text := english,
            description := ("General query") }
    | .ok resp => .ok (parseLLMResponse resp original english)

/-- The non-keyword tail of `detect`: LLM fallback when enabled, otherwise
the default `general` intent with confidence `0.5`. -/
def detectFallback (useLLM : Bool) (h : Option ChatFn) (mk : Except String ChatFn)
    (text : String) (etext : Option String) : Except String DetectedIntent :=
  if useLLM then llmDetect useLLM h mk text (pyOr etext text)
  else
    .ok { type := .general, confidence := 0.5, entities := [],
          original_text := text, english_text := pyOr etext text,
          description := ("General conversation or query") }

/-- `IntentDetector.detect`.  `h` is the current `_llm` handle and `mk`
the (fallible) lazy construction of a fresh one. -/
def IntentDetector.detect (useLLM : Bool) (h : Option ChatFn) (mk : Except String ChatFn)
    (text : String) (etext : Option String) : Except String DetectedIntent :=
  match keywordDetect (analysisText text etext) with
  | some it =>
    if it = .unknown then detectFallback useLLM h mk text etext
    else
      .ok { type := it, confidence := 0.8, entities := [],
            original_text := text, english_text := pyOr etext text,
            description := intentDescription it }
  | none => detectFallback useLLM h mk text etext

/-! ### Specification-side renderings of the keyword tier -/

/-- Highest score present in a scored category list (0 when empty). -/
def maxVal (l : List (IntentType × Nat)) : Nat :=
  l.foldr (fun p m => max p.2 m) 0

/-- Rendering of the keyword-tier sentence with ties broken by the
keyword-pattern table declaration order: every category is scored in
pattern-table order, the first category attaining the (non-zero) maximal
score wins. -/
def keywordDetectSpec (text : String) : Option IntentType :=
  let scored := INTENT_PATTERNS.map (fun p => (p.1, keywordScoreOn (pyLower text) p.2))
  if maxVal scored = 0 then none
  else (scored.find? (fun p => p.2 == maxVal scored)).map Prod.fst

/-- The intent taxonomy in its declaration order (the `IntentType` enum). -/
def taxonomyOrder : List IntentType :=
  [.greeting, .question, .command, .information, .task, .weather,
   .time, .reminder, .calculation, .translation, .general, .unknown]

/-- Keyword triggers of a category (empty for categories without an entry
in the pattern table). -/
def patternsOf (it : IntentType) : List String :=
  ((INTENT_PATTERNS.find? (fun p => p.1 == it)).map Prod.snd).getD []

/-- Rendering of the claim sentence as written: the category with the
highest non-zero keyword score wins, with ties broken by first-declared
category in the taxonomy ordering. -/
def keywordDetectTaxonomySpec (text : String) : Option IntentType :=
  let scored := taxonomyOrder.map (fun it => (it, keywordScoreOn (pyLower text) (patternsOf it)))
  if maxVal scored = 0 then none
  else (scored.find? (fun p => p.2 == maxVal scored)).map Prod.fst

/-! ## Pipeline orchestrator (src/pipeline/orchestrator.py) -/

/-- The `PipelineResult` dataclass with its field defaults.  Durations are
natural numbers of (model) milliseconds; `audio_output` holds an opaque
audio token when synthesis succeeded. -/
structure PipelineResult where
  audio_input : Option String := none
  malayalam_text : String := ""
  asr_time_ms : Nat := 0
  english_text : String := ""
  translation_ml_en_time_ms : Nat := 0
  intent_type : String := ""
  intent_description : String := ""
  intent_confidence : ℚ := 0
  intent_entities : List (String × String) := []
  english_response : String := ""
  llm_time_ms : Nat := 0
  malayalam_response : String := ""
  translation_en_ml_time_ms : Nat := 0
  audio_output : Option String := none
  tts_time_ms : Nat := 0
  total_time_ms : Nat := 0
  success : Bool := true
  error : Option String := none
deriving DecidableEq, Repr

/-- Wall-clock durations measured around each stage and around the whole
call; supplied as an environment since the model has no clock. -/
structure Times where
  asr : Nat := 0
  mlEn : Nat := 0
  llm : Nat := 0
  enMl : Nat := 0
  tts : Nat := 0
  total : Nat := 0
deriving DecidableEq, Repr

/-- The five external engine handles.  Lazy loading inside `process`
happens within the same `try` block as the engine call, so a
load-or-call failure is one `Except.error`.  The optional output path of
synthesis is abstracted into the oracle. -/
structure Engines where
  transcribe : String → Except String String
  mlToEn : String → Except String String
  enToMl : String → Except String String
  chat : String → Except String String
  synthesize : String → Except String String

/-- The `_intent_detector` handle as used by stage 3: a detector taking
(original text, optional English text), possibly raising. -/
abbrev DetectorFn := String → Option String → Except String DetectedIntent

/-- Python truthiness of an optional string (`None` and `""` are falsy). -/
def truthyS : Option String → Bool
  | none => false
  | some s => s != ""

/-- A stage outcome: the updated record, or a raised message together
with the record as mutated so far. -/
abbrev StageM := Except (String × PipelineResult) PipelineResult

/-- Stage 1: ASR if audio was given, raw text otherwise, and a raise when
neither input is (truthily) present. -/
def stage1 (eng : Engines) (t : Times) (audio_path text_input : Option String)
    (r : PipelineResult) : StageM :=
  if truthyS audio_path then
    match eng.transcribe (audio_path.getD "") with
    | .ok txt => .ok { r with malayalam_text := txt, asr_time_ms := t.asr }
    | .error e => .error (e, r)
  else if truthyS text_input then
    .ok { r with malayalam_text := text_input.getD "", asr_time_ms := 0 }
  else .error (("Either audio_path or text_input must be provided"), r)

/-- Stage 2: translate target language to English only when the input
language is `"ml"`; otherwise pass through with zero elapsed time. -/
def stage2 (eng : Engines) (t : Times) (input_language : String)
    (r : PipelineResult) : StageM :=
  if input_language == "ml" then
    match eng.mlToEn r.malayalam_text with
    | .ok txt => .ok { r with english_text := txt, translation_ml_en_time_ms := t.mlEn }
    | .error e => .error (e, r)
  else .ok { r with english_text := r.malayalam_text, translation_ml_en_time_ms := 0 }

/-- Stage 3: intent detection, guarded by
`if self.detect_intent and self._intent_detector:` — it runs only when the
flag is on AND the handle is already loaded.  (The `None` re-check inside
that guard in the source is unreachable and has no effect.)  There is no
local exception handler: a raising detector propagates to the
pipeline-level handler. -/
def stage3 (detectIntent : Bool) (det : Option DetectorFn) (r : PipelineResult) : StageM :=
  match det, detectIntent with
  | some d, true =>
    match d r.malayalam_text (some r.english_text) with
    | .ok i =>
      .ok { r with intent_type := i.type.value, intent_description := i.description,
                   intent_confidence := i.confidence, intent_entities := i.entities }
    | .error e => .error (e, r)
  | _, _ => .ok r

/-- Stage 4: chat generation on the English text. -/
def stage4 (eng : Engines) (t : Times) (r : PipelineResult) : StageM :=
  match eng.chat r.english_text with
  | .ok content => .ok { r with english_response := content, llm_time_ms := t.llm }
  | .error e => .error (e, r)

/-- Stage 5: back-translation of the reply.  In the source this stage is
not guarded by the input language: it always runs. -/
def stage5 (eng : Engines) (t : Times) (r : PipelineResult) : StageM :=
  match eng.enToMl r.english_response with
  | .ok txt => .ok { r with malayalam_response := txt, translation_en_ml_time_ms := t.enMl }
  | .error e => .error (e, r)

/-- Stage 6: speech synthesis of the final reply. -/
def stage6 (eng : Engines) (t : Times) (r : PipelineResult) : StageM :=
  match eng.synthesize r.malayalam_response with
  | .ok audio => .ok { r with audio_output := some audio, tts_time_ms := t.tts }
  | .error e => .error (e, r)

/-- Sequencing of stages with early exit on a raise. -/
def thenStage (f g : PipelineResult → StageM) (r : PipelineResult) : StageM :=
  match f r with
  | .ok r1 => g r1
  | .error e => .error e

/-- The body of the `try` block of `process`: stages 1 to 6 in order. -/
def processBody (detectIntent : Bool) (det : Option DetectorFn) (eng : Engines) (t : Times)
    (audio_path text_input : Option String) (input_language : String) :
    PipelineResult → StageM :=
  thenStage (stage1 eng t audio_path text_input)
    (thenStage (stage2 eng t input_language)
      (thenStage (stage3 detectIntent det)
        (thenStage (stage4 eng t)
          (thenStage (stage5 eng t) (stage6 eng t)))))

/-- `VoiceAssistantPipeline.process`: a total function — the whole stage
sequence sits in one `try`, whose handler records failure in the result
instead of re-raising; the total elapsed time is set on every path. -/
def process (detectIntent : Bool) (det : Option DetectorFn) (eng : Engines) (t : Times)
    (audio_path text_input : Option String) (input_language : String) : PipelineResult :=
  let r0 : PipelineResult := { audio_input := audio_path }
  let rdone :=
    match processBody detectIntent det eng t audio_path text_input input_language r0 with
    | .ok r => { r with success := true }
    | .error (e, r) => { r with success := false, error := some e }
  { rdone with total_time_ms := t.total }

/-- `VoiceAssistantPipeline.process_text`: `process` without audio. -/
def process_text (detectIntent : Bool) (det : Option DetectorFn) (eng : Engines) (t : Times)
    (text : String) (input_language : String) : PipelineResult :=
  process detectIntent det eng t none (some text) input_language

/-- The detector the pipeline itself installs:
`IntentDetector(use_llm=False)` wrapped as a stage-3 handle.  `mk` is the
lazy LLM construction, irrelevant when `use_llm` is off. -/
def keywordOnlyDetector (mk : Except String ChatFn) : DetectorFn :=
  fun text etext => IntentDetector.detect false none mk text etext

/-! ## Agent graph fallback path (src/agents/orchestrator.py) -/

/-- One handler output fragment.  A fragment "contains a response field"
exactly when `response` is `some`; the other labeled payloads of the
specialized handlers are irrelevant to aggregation. -/
structure AgentOutput where
  response : Option String := none
  sources : List String := []
  task_created : Option Bool := none
deriving DecidableEq, Repr

/-- The `AgentState` TypedDict; `agent_outputs` is an insertion-ordered
dict keyed by handler name. -/
structure AgentState where
  user_input : String
  language : String
  intent : Option String := none
  entities : List (String × String) := []
  agent_outputs : List (String × AgentOutput) := []
  final_response : Option String := none
  error : Option String := none
deriving DecidableEq, Repr

/-- Dict assignment for the `agent_outputs` map. -/
def dictSetA (d : List (String × AgentOutput)) (k : String) (v : AgentOutput) :
    List (String × AgentOutput) :=
  if d.any (fun p => p.1 == k) then d.map (fun p => if p.1 == k then (k, v) else p)
  else d ++ [(k, v)]

/-- `AgentOrchestrator._classify_intent`: keyword buckets checked in
order, defaulting to general chat. -/
def classifyIntentAg (s : AgentState) : AgentState :=
  let ui := pyLower s.user_input
  let intent :=
    if [("what"), ("who"), ("where"), ("when"), ("how"), ("why"), ("tell me")].any
        (fun w => pyIn w ui) then ("information_query")
    else if [("remind"), ("schedule"), ("task"), ("todo"), ("calendar")].any
        (fun w => pyIn w ui) then ("task_management")
    else if [("light"), ("fan"), ("ac"), ("door"), ("temperature")].any
        (fun w => pyIn w ui) then ("smart_home")
    else ("general_chat")
  { s with intent := some intent }

/-- `AgentOrchestrator._run_chat_agent`. -/
def runChatAgent (s : AgentState) : AgentState :=
  { s with
    agent_outputs := dictSetA s.agent_outputs ("chat_agent")
      ({ response := some (("[Chat Agent] I understand you said: ") ++ s.user_input) }) }

/-- `AgentOrchestrator._generate_response`: space-join, in insertion
order, the fragments that carry a response; fixed fallback otherwise. -/
def generateResponseAg (s : AgentState) : AgentState :=
  let responses := s.agent_outputs.foldl
    (fun acc p => match p.2.response with | some r => acc ++ [r] | none => acc) []
  { s with
    final_response := some (if responses.isEmpty then ("I couldn\x27t process your request.")
      else String.intercalate (" ") responses) }

/-- The dictionary `AgentOrchestrator.process` returns. -/
structure AgentProcessResult where
  response : String
  intent : Option String
  language : Option String
deriving DecidableEq, Repr

/-- `AgentOrchestrator.process` when the graph runtime is unavailable:
the simplified path classify, then chat handler, then aggregate. -/
def agentProcessSimple (user_input language : String) : AgentProcessResult :=
  let s0 : AgentState := { user_input := user_input, language := language }
  let s := generateResponseAg (runChatAgent (classifyIntentAg s0))
  { response := s.final_response.getD ""
    intent := s.intent
    language := some s.language }

/-! ## Conversation history (src/llm/qwen.py) -/

/-- The `Message` dataclass. -/
structure Message where
  role : String
  content : String
deriving DecidableEq, Repr

/-- Python `l[-k:]` for a non-negative `k`: the last `k` elements, except
that `k = 0` yields the whole list (since `-0 == 0`). -/
def pySliceLast (k : Nat) (l : List Message) : List Message :=
  if k = 0 then l else l.drop (l.length - k)

/-- The history update a remembered `QwenLLM.chat` call performs: append
the user and assistant messages, then trim to the last
`max_memory_messages * 2` entries when that bound is exceeded. -/
def chatHistoryUpdate (maxMem : Nat) (hist : List Message) (userIn resp : String) :
    List Message :=
  let h := hist ++ [{ role := ("user"), content := userIn },
                    { role := ("assistant"), content := resp }]
  if maxMem * 2 < h.length then pySliceLast (maxMem * 2) h else h

/-- `QwenLLM.clear_history`. -/
def clearHistory : List Message := []

/-! ## Concrete oracles used to instantiate theorems -/

/-- Engines that always succeed, tagging their outputs. -/
def engOkA : Engines :=
  { transcribe := fun s => .ok (s ++ ("#asr"))
    mlToEn := fun s => .ok (s ++ ("#en"))
    enToMl := fun s => .ok (s ++ ("#ml"))
    chat := fun s => .ok (("re: ") ++ s)
    synthesize := fun s => .ok (("wav:") ++ s) }

/-- Engines whose chat stage raises. -/
def engChatFail : Engines :=
  { engOkA with chat := fun _ => .error ("llm down") }

/-- Engines whose speech recognition raises with an empty message
(`str(e) == ""`). -/
def engEmptyMsg : Engines :=
  { engOkA with transcribe := fun _ => .error ("") }

/-- A detector handle that raises. -/
def detBoom : DetectorFn := fun _ _ => .error ("intent boom")

/-- A fixed duration environment. -/
def t7 : Times := { asr := 1, mlEn := 2, llm := 3, enMl := 7, tts := 4, total := 9 }

/-! ## Frame lemmas for the pipeline stages -/

/-- A stage step leaves the view `g` of the record unchanged, both on its
success record and on the partially-mutated record carried by a raise. -/
def keeps {α : Type} (step : PipelineResult → StageM) (g : PipelineResult → α) : Prop :=
  ∀ r, (match step r with
        | .ok r1 => g r1
        | .error (_, r1) => g r1) = g r

theorem keeps_then {α : Type} {f h : PipelineResult → StageM} {g : PipelineResult → α}
    (hf : keeps f g) (hh : keeps h g) : keeps (thenStage f h) g := by
  intro r
  have hf1 := hf r
  unfold thenStage
  cases hfe : f r with
  | ok r1 =>
    rw [hfe] at hf1
    simp only at hf1
    rw [← hf1]
    exact hh r1
  | error e =>
    rw [hfe] at hf1
    cases e with
    | mk e r1 => simpa using hf1

theorem keeps_stage1 {α : Type} (eng : Engines) (t : Times) (ap ti : Option String)
    (g : PipelineResult → α)
    (hg : ∀ r m a, g { r with malayalam_text := m, asr_time_ms := a } = g r) :
    keeps (stage1 eng t ap ti) g := by
  intro r
  unfold stage1
  by_cases h1 : truthyS ap = true
  · cases he : eng.transcribe (ap.getD "") <;> simp [h1, he, hg]
  · by_cases h2 : truthyS ti = true <;> simp [h1, h2, hg]

theorem keeps_stage2 {α : Type} (eng : Engines) (t : Times) (lang : String)
    (g : PipelineResult → α)
    (hg : ∀ r x y, g { r with english_text := x, translation_ml_en_time_ms := y } = g r) :
    keeps (stage2 eng t lang) g := by
  intro r
  unfold stage2
  by_cases h1 : (lang == "ml") = true
  · cases he : eng.mlToEn r.malayalam_text <;> simp [h1, he, hg]
  · simp [h1, hg]

theorem keeps_stage3 {α : Type} (di : Bool) (det : Option DetectorFn)
    (g : PipelineResult → α)
    (hg : ∀ r a b c d, g { r with intent_type := a, intent_description := b, intent_confidence := c, intent_entities := d } = g r) :
    keeps (stage3 di det) g := by
  intro r
  cases det with
  | none => cases di <;> rfl
  | some d =>
    cases di with
    | false => rfl
    | true =>
      unfold stage3
      cases he : d r.malayalam_text (some r.english_text) <;> simp [he, hg]

theorem keeps_stage3_none {α : Type} (di : Bool) (g : PipelineResult → α) :
    keeps (stage3 di none) g := by
  intro r
  cases di <;> rfl

theorem keeps_stage4 {α : Type} (eng : Engines) (t : Times)
    (g : PipelineResult → α)
    (hg : ∀ r x y, g { r with english_response := x, llm_time_ms := y } = g r) :
    keeps (stage4 eng t) g := by
  intro r
  unfold stage4
  cases he : eng.chat r.english_text <;> simp [he, hg]

theorem keeps_stage5 {α : Type} (eng : Engines) (t : Times)
    (g : PipelineResult → α)
    (hg : ∀ r x y, g { r with malayalam_response := x, translation_en_ml_time_ms := y } = g r) :
    keeps (stage5 eng t) g := by
  intro r
  unfold stage5
  cases he : eng.enToMl r.english_response <;> simp [he, hg]

theorem keeps_stage6 {α : Type} (eng : Engines) (t : Times)
    (g : PipelineResult → α)
    (hg : ∀ r x y, g { r with audio_output := some x, tts_time_ms := y } = g r) :
    keeps (stage6 eng t) g := by
  intro r
  unfold stage6
  cases he : eng.synthesize r.malayalam_response <;> simp [he, hg]

/-- The wrapper of `process` only touches `success`, `error` and
`total_time_ms`; a view insensitive to those and kept by the body is
determined by the freshly-created record. -/
theorem process_keeps_view {α : Type} (di : Bool) (det : Option DetectorFn) (eng : Engines)
    (t : Times) (ap ti : Option String) (lang : String) (g : PipelineResult → α)
    (hk : keeps (processBody di det eng t ap ti lang) g)
    (hgok : ∀ r n, g { r with success := true, total_time_ms := n } = g r)
    (hgerr : ∀ r e n, g { r with success := false, error := some e, total_time_ms := n } = g r) :
    g (process di det eng t ap ti lang) = g ({ audio_input := ap } : PipelineResult) := by
  have h := hk ({ audio_input := ap } : PipelineResult)
  unfold process
  cases hb : processBody di det eng t ap ti lang { audio_input := ap } with
  | ok r =>
    rw [hb] at h
    simp only at h
    simp only [hb]
    exact (hgok r t.total).trans h
  | error e =>
    rw [hb] at h
    cases e with
    | mk e r =>
      simp only at h
      simp only [hb]
      exact (hgerr r e t.total).trans h

/-! ## Lemmas about the keyword-scoring maximum -/

theorem maxVal_cons (p : IntentType × Nat) (l : List (IntentType × Nat)) :
    maxVal (p :: l) = max p.2 (maxVal l) := rfl

/-- Python `max` over a nonempty list returns the first entry attaining
the maximal value. -/
theorem find_max_eq (t : List (IntentType × Nat)) :
    ∀ best, (best :: t).find? (fun p => p.2 == maxVal (best :: t)) = some (maxKeyAux best t) := by
  induction t with
  | nil =>
    intro best
    have h : maxVal [best] = best.2 := by simp [maxVal]
    simp [h, maxKeyAux, List.find?_cons]
  | cons q t ih =>
    intro best
    by_cases hbq : best.2 < q.2
    · have hqM : q.2 ≤ maxVal (q :: t) := by rw [maxVal_cons]; exact Nat.le_max_left _ _
      have hbM : best.2 < maxVal (q :: t) := lt_of_lt_of_le hbq hqM
      have hM : maxVal (best :: q :: t) = maxVal (q :: t) := by
        rw [maxVal_cons (best)]
        exact Nat.max_eq_right (le_of_lt hbM)
      have hRHS : maxKeyAux best (q :: t) = maxKeyAux q t := by
        simp [maxKeyAux, hbq]
      have hpred : (best.2 == maxVal (q :: t)) = false := by
        simp only [beq_eq_false_iff_ne]
        omega
      rw [hRHS, hM]
      simp only [List.find?_cons, hpred]
      exact ih q
    · have hqb : q.2 ≤ best.2 := Nat.le_of_not_lt hbq
      have hM : maxVal (best :: q :: t) = maxVal (best :: t) := by
        rw [maxVal_cons (best), maxVal_cons (q), maxVal_cons (best), ← Nat.max_assoc,
          Nat.max_eq_left hqb]
      have hRHS : maxKeyAux best (q :: t) = maxKeyAux best t := by
        simp [maxKeyAux, hbq]
      have hbLe : best.2 ≤ maxVal (best :: t) := by
        rw [maxVal_cons]; exact Nat.le_max_left _ _
      rw [hRHS, hM]
      cases hb : (best.2 == maxVal (best :: t)) with
      | true =>
        have hvb := ih best
        simp only [List.find?_cons, hb] at hvb ⊢
        exact hvb
      | false =>
        have hbne : best.2 ≠ maxVal (best :: t) := by
          simpa only [beq_eq_false_iff_ne] using hb
        have hq2 : (q.2 == maxVal (best :: t)) = false := by
          simp only [beq_eq_false_iff_ne]
          omega
        have hvb := ih best
        simp only [List.find?_cons, hb] at hvb
        simp only [List.find?_cons, hb, hq2]
        exact hvb

theorem maxVal_filter (l : List (IntentType × Nat)) :
    maxVal (l.filter (fun p => decide (0 < p.2))) = maxVal l := by
  induction l with
  | nil => rfl
  | cons p t ih =>
    by_cases hp : 0 < p.2
    · rw [List.filter_cons_of_pos (by simp [hp]), maxVal_cons, maxVal_cons, ih]
    · have hp0 : p.2 = 0 := Nat.eq_zero_of_not_pos hp
      rw [List.filter_cons_of_neg (by simp [hp]), maxVal_cons, hp0, ih]
      simp

theorem find_filter_eq (l : List (IntentType × Nat)) (M : Nat) (hM : M ≠ 0) :
    (l.filter (fun p => decide (0 < p.2))).find? (fun p => p.2 == M) =
      l.find? (fun p => p.2 == M) := by
  induction l with
  | nil => rfl
  | cons p t ih =>
    by_cases hp : 0 < p.2
    · rw [List.filter_cons_of_pos (by simp [hp])]
      cases hpM : (p.2 == M) with
      | true => simp only [List.find?_cons, hpM]
      | false =>
        simp only [List.find?_cons, hpM]
        exact ih
    · have hp0 : p.2 = 0 := Nat.eq_zero_of_not_pos hp
      have hpM : (p.2 == M) = false := by
        simp only [beq_eq_false_iff_ne, hp0]
        omega
      rw [List.filter_cons_of_neg (by simp [hp])]
      rw [ih]
      rw [List.find?_cons_of_neg t (by simp [hpM])]

theorem maxVal_zero_of_filter_nil (l : List (IntentType × Nat))
    (h : l.filter (fun p => decide (0 < p.2)) = []) : maxVal l = 0 := by
  induction l with
  | nil => rfl
  | cons p t ih =>
    by_cases hp : 0 < p.2
    · rw [List.filter_cons_of_pos (by simp [hp])] at h
      exact absurd h (by simp)
    · have hp0 : p.2 = 0 := Nat.eq_zero_of_not_pos hp
      rw [List.filter_cons_of_neg (by simp [hp])] at h
      rw [maxVal_cons, hp0, ih h]
      simp

theorem maxVal_ne_zero_of_filter_cons (l : List (IntentType × Nat))
    (p : IntentType × Nat) (rest : List (IntentType × Nat))
    (h : l.filter (fun q => decide (0 < q.2)) = p :: rest) : maxVal l ≠ 0 := by
  have hp : 0 < p.2 := by
    have hmem : p ∈ l.filter (fun q => decide (0 < q.2)) := by
      rw [h]
      exact List.mem_cons_self _ _
    simpa using (List.mem_filter.mp hmem).2
  have hml : maxVal l = max p.2 (maxVal rest) := by
    rw [← maxVal_filter l, h, maxVal_cons]
  rw [hml]
  have := Nat.le_max_left p.2 (maxVal rest)
  omega

/-- Core comparison: Python `max` over the positive-score dict equals the
first-maximum choice over the full pattern-ordered score list. -/
theorem pymax_filter_eq_spec (scored : List (IntentType × Nat)) :
    (match scored.filter (fun p => decide (0 < p.2)) with
     | [] => none
     | p :: rest => some (maxKeyAux p rest).1) =
    (if maxVal scored = 0 then none
     else (scored.find? (fun p => p.2 == maxVal scored)).map Prod.fst) := by
  cases hf : scored.filter (fun p => decide (0 < p.2)) with
  | nil => simp [maxVal_zero_of_filter_nil scored hf]
  | cons p rest =>
    have hM0 := maxVal_ne_zero_of_filter_cons scored p rest hf
    have hMf : maxVal (p :: rest) = maxVal scored := by
      rw [← maxVal_filter scored, hf]
    rw [if_neg hM0, ← find_filter_eq scored (maxVal scored) hM0, hf, ← hMf, find_max_eq]
    rfl

/-- `_keyword_detect` agrees with the pattern-order first-maximum
rendering on every input. -/
theorem keywordDetect_eq_spec (text : String) :
    keywordDetect text = keywordDetectSpec text := by
  simp only [keywordDetect, keywordDetectSpec, scoresList]
  exact pymax_filter_eq_spec _

/-! ## Lemmas about the LLM-response parser -/

theorem parseStep_type_general (acc : IntentType × List (String × String) × String)
    (line0 : String) (hacc : acc.1 = IntentType.general)
    (hline : pyStartsWith (pyStrip line0) ("INTENT:") = true →
      intentTypeOfString (pyLower (pyStrip (pyReplace (pyStrip line0) ("INTENT:") ("")))) = none) :
    (parseStep acc line0).1 = IntentType.general := by
  unfold parseStep
  by_cases h1 : pyStartsWith (pyStrip line0) ("INTENT:") = true
  · simp only [h1, if_true, hline h1]
    rfl
  · simp only [h1, if_false]
    by_cases h2 : pyStartsWith (pyStrip line0) ("ENTITIES:") = true
    · simp only [h2, if_true]
      by_cases h3 : (pyLower (pyStrip (pyReplace (pyStrip line0) ("ENTITIES:") (""))) == "none") = true
      · simp only [h3, if_true]
        exact hacc
      · simp only [h3, if_false]
        exact hacc
    · simp only [h2, if_false]
      by_cases h4 : pyStartsWith (pyStrip line0) ("DESCRIPTION:") = true
      · simp only [h4, if_true]
        exact hacc
      · simp only [h4, if_false]
        exact hacc

theorem parseLines_type_general (ls : List String) :
    ∀ acc : IntentType × List (String × String) × String, acc.1 = IntentType.general →
    (∀ line ∈ ls, pyStartsWith (pyStrip line) ("INTENT:") = true →
      intentTypeOfString (pyLower (pyStrip (pyReplace (pyStrip line) ("INTENT:") ("")))) = none) →
    (parseLines ls acc).1 = IntentType.general := by
  induction ls with
  | nil =>
    intro acc hacc _
    exact hacc
  | cons l ls ih =>
    intro acc hacc hall
    have hstep : parseLines (l :: ls) acc = parseLines ls (parseStep acc l) := rfl
    rw [hstep]
    exact ih (parseStep acc l)
      (parseStep_type_general acc l hacc (hall l (List.mem_cons_self _ _)))
      (fun line hm => hall line (List.mem_cons_of_mem _ hm))

/-! ## Lemma about response aggregation -/

theorem respFoldEq (l : List (String × AgentOutput)) :
    ∀ acc : List String,
      l.foldl (fun a p => match p.2.response with | some r => a ++ [r] | none => a) acc
        = acc ++ l.filterMap (fun p => p.2.response) := by
  induction l with
  | nil => intro acc; simp
  | cons p t ih =>
    intro acc
    cases hp : p.2.response with
    | none => simp [List.foldl_cons, hp, ih, List.filterMap_cons]
    | some r => simp [List.foldl_cons, hp, ih, List.filterMap_cons]

/-! ## Claim theorems -/

/-- C10: calling `process` with neither an audio reference nor a text
input does not raise; it returns a record with success false, the fixed
error message, and every stage field at its default. -/
theorem C10_no_input_returns_failed_record :
    ∀ (di : Bool) (det : Option DetectorFn) (eng : Engines) (t : Times) (lang : String),
      process di det eng t none none lang =
        { audio_input := none, total_time_ms := t.total, success := false,
          error := some ("Either audio_path or text_input must be provided") } := by
  intro di det eng t lang
  rfl

/-- C1: a raise in stage 1, 2, 4, 5 or 6 aborts the remaining stages and
`process` still returns: success is false, the message is recorded,
fields of completed stages keep their values and fields of later stages
stay at their defaults; in particular a response-generation (stage 4)
failure leaves the recognized text and translated input populated while
reply, back-translated reply and audio stay at defaults. -/
theorem C1_stage_failures_contained :
    (∀ (det : Option DetectorFn) (eng : Engines) (t : Times) (lang ap msg : String),
      ap ≠ "" → eng.transcribe ap = .error msg →
      process false det eng t (some ap) none lang =
        { audio_input := some ap, total_time_ms := t.total, success := false,
          error := some msg }) ∧
    (∀ (det : Option DetectorFn) (eng : Engines) (t : Times) (txt msg : String),
      txt ≠ "" → eng.mlToEn txt = .error msg →
      process false det eng t none (some txt) ("ml") =
        { malayalam_text := txt, total_time_ms := t.total, success := false,
          error := some msg }) ∧
    (∀ (eng : Engines) (t : Times) (txt etxt msg : String),
      txt ≠ "" → eng.mlToEn txt = .ok etxt → eng.chat etxt = .error msg →
      process false none eng t none (some txt) ("ml") =
        { malayalam_text := txt, english_text := etxt, translation_ml_en_time_ms := t.mlEn,
          total_time_ms := t.total, success := false, error := some msg }) ∧
    (∀ (eng : Engines) (t : Times) (txt etxt resp msg : String),
      txt ≠ "" → eng.mlToEn txt = .ok etxt → eng.chat etxt = .ok resp →
      eng.enToMl resp = .error msg →
      process false none eng t none (some txt) ("ml") =
        { malayalam_text := txt, english_text := etxt, translation_ml_en_time_ms := t.mlEn,
          english_response := resp, llm_time_ms := t.llm,
          total_time_ms := t.total, success := false, error := some msg }) ∧
    (∀ (eng : Engines) (t : Times) (txt etxt resp mlr msg : String),
      txt ≠ "" → eng.mlToEn txt = .ok etxt → eng.chat etxt = .ok resp →
      eng.enToMl resp = .ok mlr → eng.synthesize mlr = .error msg →
      process false none eng t none (some txt) ("ml") =
        { malayalam_text := txt, english_text := etxt, translation_ml_en_time_ms := t.mlEn,
          english_response := resp, llm_time_ms := t.llm, malayalam_response := mlr,
          translation_en_ml_time_ms := t.enMl,
          total_time_ms := t.total, success := false, error := some msg }) := by
  refine ⟨?_, ?_, ?_, ?_, ?_⟩
  · intro det eng t lang ap msg h0 h1
    simp only [process, processBody, thenStage, stage1, stage2, stage3, stage4, stage5, stage6,
      truthyS, Option.getD, h1]
    simp [bne_iff_ne, h0]
  · intro det eng t txt msg h0 h1
    simp only [process, processBody, thenStage, stage1, stage2, stage3, stage4, stage5, stage6,
      truthyS, Option.getD]
    simp [bne_iff_ne, h0, h1]
  · intro eng t txt etxt msg h0 h1 h2
    simp only [process, processBody, thenStage, stage1, stage2, stage3, stage4, stage5, stage6,
      truthyS, Option.getD]
    simp [bne_iff_ne, h0, h1, h2]
  · intro eng t txt etxt resp msg h0 h1 h2 h3
    simp only [process, processBody, thenStage, stage1, stage2, stage3, stage4, stage5, stage6,
      truthyS, Option.getD]
    simp [bne_iff_ne, h0, h1, h2, h3]
  · intro eng t txt etxt resp mlr msg h0 h1 h2 h3 h4
    simp only [process, processBody, thenStage, stage1, stage2, stage3, stage4, stage5, stage6,
      truthyS, Option.getD]
    simp [bne_iff_ne, h0, h1, h2, h3, h4]

/-- C1 witness: a concrete response-generation failure, with stages 1 and
2 completed via concrete oracles. -/
theorem C1_stage_failures_contained_witness :
    ("hi" : String) ≠ "" ∧
    process false none engChatFail t7 none (some ("hi")) ("ml") =
      { malayalam_text := "hi", english_text := "hi#en", translation_ml_en_time_ms := 2,
        total_time_ms := 9, success := false, error := some ("llm down") } :=
  ⟨by decide, C1_stage_failures_contained.2.2.1 engChatFail t7 ("hi") ("hi#en") ("llm down")
    (by decide) rfl rfl⟩

/-- C2 (amended): for every record returned by `process`, success is
false iff the error field is set (not `None`); when success is true the
error field is `None`.  The recorded message is `str(e)` of the raised
exception and may itself be the empty string. -/
theorem C2_success_iff_error_set :
    ∀ (di : Bool) (det : Option DetectorFn) (eng : Engines) (t : Times)
      (ap ti : Option String) (lang : String),
      ((process di det eng t ap ti lang).success = false ↔
        (process di det eng t ap ti lang).error ≠ none) ∧
      ((process di det eng t ap ti lang).success = true →
        (process di det eng t ap ti lang).error = none) := by
  intro di det eng t ap ti lang
  have hk : keeps (processBody di det eng t ap ti lang) (fun r => r.error) := by
    apply keeps_then (keeps_stage1 eng t ap ti (fun r => r.error) (fun r m a => rfl))
    apply keeps_then (keeps_stage2 eng t lang (fun r => r.error) (fun r x y => rfl))
    apply keeps_then (keeps_stage3 di det (fun r => r.error) (fun r a b c d => rfl))
    apply keeps_then (keeps_stage4 eng t (fun r => r.error) (fun r x y => rfl))
    exact keeps_then (keeps_stage5 eng t (fun r => r.error) (fun r x y => rfl))
      (keeps_stage6 eng t (fun r => r.error) (fun r x y => rfl))
  have h := hk ({ audio_input := ap } : PipelineResult)
  unfold process
  cases hb : processBody di det eng t ap ti lang { audio_input := ap } with
  | ok r =>
    rw [hb] at h
    simp only at h
    simp only [hb]
    simp [h]
  | error e =>
    cases e with
    | mk e r => simp [hb]

/-- C2 counterexample: an engine raising an exception with empty text
yields success false with the error field set to the empty string, so
"success is false iff error is non-empty" fails as stated. -/
theorem C2_empty_message_counterexample :
    (process false none engEmptyMsg t7 (some ("a.wav")) none ("ml")).success = false ∧
    (process false none engEmptyMsg t7 (some ("a.wav")) none ("ml")).error = some ("") := by
  constructor <;> rfl

theorem thenStage_ok {f g : PipelineResult → StageM} {r r1 : PipelineResult}
    (h : f r = .ok r1) : thenStage f g r = g r1 := by
  unfold thenStage
  rw [h]

/-- C3 (amended): for an English-language text input the target→English
translation stage is a pass-through — recognized text is copied, its
elapsed time is zero, and the result does not depend on the target→English
engine at all — but the English→target back-translation of the reply is
not guarded by the language: it still invokes the translation engine and
records its elapsed time. -/
theorem C3_english_input_translation :
    ∀ (di : Bool) (det : Option DetectorFn) (eng : Engines) (t : Times) (txt : String)
      (f : String → Except String String),
      txt ≠ "" →
      ((process_text di det eng t txt ("en")).english_text = txt ∧
       (process_text di det eng t txt ("en")).translation_ml_en_time_ms = 0) ∧
      process_text di det { eng with mlToEn := f } t txt ("en") =
        process_text di det eng t txt ("en") ∧
      (∀ resp back, eng.chat txt = .ok resp → eng.enToMl resp = .ok back →
        (process_text di none eng t txt ("en")).malayalam_response = back ∧
        (process_text di none eng t txt ("en")).translation_en_ml_time_ms = t.enMl) := by
  intro di det eng t txt f htxt
  have h1 : stage1 eng t none (some txt) ({ audio_input := none } : PipelineResult) =
      .ok { audio_input := none, malayalam_text := txt, asr_time_ms := 0 } := by
    unfold stage1
    simp [truthyS, bne_iff_ne, htxt]
  have h2 : stage2 eng t ("en") { audio_input := none, malayalam_text := txt, asr_time_ms := 0 } =
      .ok { audio_input := none, malayalam_text := txt, english_text := txt } := rfl
  refine ⟨?_, rfl, ?_⟩
  · have hrest : keeps (thenStage (stage3 di det)
        (thenStage (stage4 eng t) (thenStage (stage5 eng t) (stage6 eng t))))
        (fun r => (r.english_text, r.translation_ml_en_time_ms)) := by
      apply keeps_then (keeps_stage3 di det
        (fun r => (r.english_text, r.translation_ml_en_time_ms)) (fun r a b c d => rfl))
      apply keeps_then (keeps_stage4 eng t
        (fun r => (r.english_text, r.translation_ml_en_time_ms)) (fun r x y => rfl))
      exact keeps_then (keeps_stage5 eng t
          (fun r => (r.english_text, r.translation_ml_en_time_ms)) (fun r x y => rfl))
        (keeps_stage6 eng t
          (fun r => (r.english_text, r.translation_ml_en_time_ms)) (fun r x y => rfl))
    have hpb : processBody di det eng t none (some txt) ("en") ({ audio_input := none }) =
        (thenStage (stage3 di det)
          (thenStage (stage4 eng t) (thenStage (stage5 eng t) (stage6 eng t))))
          ({ audio_input := none, malayalam_text := txt, english_text := txt }) := by
      unfold processBody
      rw [thenStage_ok h1, thenStage_ok h2]
    have hco := hrest ({ audio_input := none, malayalam_text := txt, english_text := txt })
    simp only [process_text, process, hpb]
    cases hrr : (thenStage (stage3 di det)
        (thenStage (stage4 eng t) (thenStage (stage5 eng t) (stage6 eng t))))
        ({ audio_input := none, malayalam_text := txt, english_text := txt }) with
    | ok rr =>
      rw [hrr] at hco
      simp only at hco
      simp only [Prod.mk.injEq] at hco
      simp [hco.1, hco.2]
    | error e =>
      cases e with
      | mk e rr =>
        rw [hrr] at hco
        simp only at hco
        simp only [Prod.mk.injEq] at hco
        simp [hco.1, hco.2]
  · intro resp back hc hb
    cases hs : eng.synthesize back with
    | ok audio =>
      simp only [process_text, process, processBody, thenStage, stage1, stage2, stage3,
        stage4, stage5, stage6, truthyS]
      simp [bne_iff_ne, htxt, hc, hb, hs]
    | error e =>
      simp only [process_text, process, processBody, thenStage, stage1, stage2, stage3,
        stage4, stage5, stage6, truthyS]
      simp [bne_iff_ne, htxt, hc, hb, hs]

/-- C3 counterexample: on an already-English text input the
English→target stage still runs — its elapsed-time field is the measured
7, not zero, and the reply was translated by the engine. -/
theorem C3_backtranslation_counterexample :
    (process_text false none engOkA t7 ("hello") ("en")).translation_en_ml_time_ms = 7 ∧
    ¬ ((process_text false none engOkA t7 ("hello") ("en")).translation_en_ml_time_ms = 0) ∧
    (process_text false none engOkA t7 ("hello") ("en")).malayalam_response = ("re: hello#ml") := by
  decide

/-- C3 witness: concrete English-input run. -/
theorem C3_english_input_translation_witness :
    ("hi" : String) ≠ "" ∧
    (process_text false none engOkA t7 ("hi") ("en")).english_text = "hi" ∧
    (process_text false none engOkA t7 ("hi") ("en")).translation_ml_en_time_ms = 0 ∧
    (process_text false none engOkA t7 ("hi") ("en")).malayalam_response = ("re: hi#ml") :=
  ⟨by decide,
    (C3_english_input_translation false none engOkA t7 ("hi")
      (fun s => Except.ok s) (by decide)).1.1,
    (C3_english_input_translation false none engOkA t7 ("hi")
      (fun s => Except.ok s) (by decide)).1.2,
    ((C3_english_input_translation false none engOkA t7 ("hi")
      (fun s => Except.ok s) (by decide)).2.2 ("re: hi") ("re: hi#ml") rfl rfl).1⟩

/-- C4 counterexample: a raising detector in stage 3 is caught by the
pipeline-level handler, not locally — the call is marked failed and the
remaining stages are skipped, contradicting "the pipeline continues and
the call is never marked failed because of it". -/
theorem C4_intent_failure_is_fatal_counterexample :
    (process true (some detBoom) engOkA t7 none (some ("hi")) ("ml")).success = false ∧
    (process true (some detBoom) engOkA t7 none (some ("hi")) ("ml")).error =
      some ("intent boom") ∧
    (process true (some detBoom) engOkA t7 none (some ("hi")) ("ml")).english_response = "" ∧
    (process true (some detBoom) engOkA t7 none (some ("hi")) ("ml")).malayalam_response = "" ∧
    (process true (some detBoom) engOkA t7 none (some ("hi")) ("ml")).audio_output = none := by
  decide

/-- C4 (amended): a failure raised inside the intent-detection stage is
caught by the pipeline-level handler — the call is marked failed with the
error recorded and stages 4—6 are skipped; it is not caught locally.
The keyword-only detector the pipeline itself installs never raises, so
with that detector the stage cannot fail at all. -/
theorem C4_intent_failure_handling :
    (∀ (d : DetectorFn) (eng : Engines) (t : Times) (txt etxt e : String),
      txt ≠ "" → eng.mlToEn txt = .ok etxt → d txt (some etxt) = .error e →
      process true (some d) eng t none (some txt) ("ml") =
        { audio_input := none, malayalam_text := txt, asr_time_ms := 0,
          english_text := etxt, translation_ml_en_time_ms := t.mlEn,
          total_time_ms := t.total, success := false, error := some e }) ∧
    (∀ (h : Option ChatFn) (mk : Except String ChatFn) (text : String) (etext : Option String),
      ∃ i, IntentDetector.detect false h mk text etext = Except.ok i) := by
  constructor
  · intro d eng t txt etxt e h0 h1 h2
    simp only [process, processBody, thenStage, stage1, stage2, stage3, stage4, stage5, stage6,
      truthyS]
    simp [bne_iff_ne, h0, h1, h2]
  · intro h mk text etext
    unfold IntentDetector.detect
    cases hk : keywordDetect (analysisText text etext) with
    | none =>
      unfold detectFallback
      simp only [if_false, Bool.false_eq_true]
      exact ⟨_, rfl⟩
    | some it =>
      by_cases hu : it = IntentType.unknown
      · simp only [hu, if_pos rfl]
        unfold detectFallback
        simp only [Bool.false_eq_true, if_false]
        exact ⟨_, rfl⟩
      · simp only [if_neg hu]
        exact ⟨_, rfl⟩

/-- C4 witness: concrete raising detector and concrete keyword-only
detection. -/
theorem C4_intent_failure_handling_witness :
    process true (some detBoom) engChatFail t7 none (some ("hey")) ("ml") =
      { audio_input := none, malayalam_text := "hey", asr_time_ms := 0,
        english_text := ("hey#en"), translation_ml_en_time_ms := 2,
        total_time_ms := 9, success := false, error := some ("intent boom") } ∧
    ∃ i, IntentDetector.detect false none (Except.error ("x")) ("hello") none = Except.ok i :=
  ⟨C4_intent_failure_handling.1 detBoom engChatFail t7 ("hey") ("hey#en") ("intent boom")
      (by decide) rfl rfl,
    C4_intent_failure_handling.2 none (Except.error ("x")) ("hello") none⟩

/-- C5: with intent detection enabled but the detector handle not yet
loaded (as before `load_components`), the guard
`detect_intent and self._intent_detector` skips stage 3 entirely: for
every input and every engine behavior the returned record keeps all four
intent fields at their defaults — no detector is constructed or invoked. -/
theorem C5_unloaded_detector_stage_skipped :
    ∀ (eng : Engines) (t : Times) (ap ti : Option String) (lang : String),
      (process true none eng t ap ti lang).intent_type = "" ∧
      (process true none eng t ap ti lang).intent_description = "" ∧
      (process true none eng t ap ti lang).intent_confidence = 0 ∧
      (process true none eng t ap ti lang).intent_entities = [] := by
  intro eng t ap ti lang
  have hk : keeps (processBody true none eng t ap ti lang)
      (fun r => (r.intent_type, r.intent_description, r.intent_confidence, r.intent_entities)) := by
    apply keeps_then (keeps_stage1 eng t ap ti
      (fun r => (r.intent_type, r.intent_description, r.intent_confidence, r.intent_entities))
      (fun r m a => rfl))
    apply keeps_then (keeps_stage2 eng t lang
      (fun r => (r.intent_type, r.intent_description, r.intent_confidence, r.intent_entities))
      (fun r x y => rfl))
    apply keeps_then (keeps_stage3_none true
      (fun r => (r.intent_type, r.intent_description, r.intent_confidence, r.intent_entities)))
    apply keeps_then (keeps_stage4 eng t
      (fun r => (r.intent_type, r.intent_description, r.intent_confidence, r.intent_entities))
      (fun r x y => rfl))
    exact keeps_then (keeps_stage5 eng t
        (fun r => (r.intent_type, r.intent_description, r.intent_confidence, r.intent_entities))
        (fun r x y => rfl))
      (keeps_stage6 eng t
        (fun r => (r.intent_type, r.intent_description, r.intent_confidence, r.intent_entities))
        (fun r x y => rfl))
  have hv := process_keeps_view true none eng t ap ti lang
    (fun r => (r.intent_type, r.intent_description, r.intent_confidence, r.intent_entities))
    hk (fun r n => rfl) (fun r e n => rfl)
  simp only at hv
  simp only [Prod.mk.injEq] at hv
  exact ⟨hv.1, hv.2.1, hv.2.2.1, hv.2.2.2⟩

/-- C6 (amended): keyword intent detection returns the category with the
highest non-zero substring-trigger count, ties broken by first-declared
category in the keyword-pattern table ordering (the order the `scores`
dict is populated in), with fixed confidence 0.8 and the canned
per-category description; "hello how are you" (tying greeting and
question at score 2) yields greeting. -/
theorem C6_keyword_detection :
    (∀ text : String, keywordDetect text = keywordDetectSpec text) ∧
    IntentDetector.detect false none (Except.error ("")) ("hello how are you") none =
      Except.ok { type := IntentType.greeting, confidence := 0.8, entities := [],
                  original_text := "hello how are you", english_text := "hello how are you",
                  description := ("User is greeting or starting a conversation") } := by
  constructor
  · exact keywordDetect_eq_spec
  · rfl

/-- C6 counterexample: "what weather" ties question and weather at score
1; the taxonomy (enum) ordering declares question before weather, so the
claim as stated predicts question, but the code returns weather (the
pattern table declares weather before question). -/
theorem C6_taxonomy_tiebreak_counterexample :
    keywordScoreOn (pyLower ("what weather")) (patternsOf IntentType.question) = 1 ∧
    keywordScoreOn (pyLower ("what weather")) (patternsOf IntentType.weather) = 1 ∧
    keywordDetectTaxonomySpec ("what weather") = some IntentType.question ∧
    keywordDetect ("what weather") = some IntentType.weather := by
  decide

theorem llmDetect_handle_ok (chatF : ChatFn) (mk : Except String ChatFn)
    (original english : String) :
    llmDetect true (some chatF) mk original english =
      (match chatF (classifyPrompt english) with
       | .error _ =>
         Except.ok { type := IntentType.general, confidence := 0.5, entities := [],
                     original_text := original, english_text := english,
                     description := ("General query") }
       | .ok resp => Except.ok (parseLLMResponse resp original english)) := rfl

/-- C7 (amended): once the fallback model handle is constructed, `detect`
never lets an exception escape: a raising chat call is downgraded to the
`general` intent with confidence 0.5 and description "General query"; a
successful call is parsed with confidence always 0.85, and an output with
no recognizable `INTENT:` label yields the `general` type.  (An error
raised during the lazy construction of the handle, by contrast, escapes
`detect` — see the counterexample.) -/
theorem C7_detect_containment :
    (∀ (chatF : ChatFn) (mk : Except String ChatFn) (text : String) (etext : Option String),
      (∃ i, IntentDetector.detect true (some chatF) mk text etext = Except.ok i) ∧
      (∀ msg, keywordDetect (analysisText text etext) = none →
        chatF (classifyPrompt (pyOr etext text)) = .error msg →
        IntentDetector.detect true (some chatF) mk text etext =
          Except.ok { type := IntentType.general, confidence := 0.5, entities := [],
                      original_text := text, english_text := pyOr etext text,
                      description := ("General query") }) ∧
      (∀ resp, keywordDetect (analysisText text etext) = none →
        chatF (classifyPrompt (pyOr etext text)) = .ok resp →
        IntentDetector.detect true (some chatF) mk text etext =
          Except.ok (parseLLMResponse resp text (pyOr etext text)))) ∧
    (∀ resp original english, (parseLLMResponse resp original english).confidence = 0.85) ∧
    (∀ resp original english,
      (∀ line ∈ pySplit (pyStrip resp) ("\n"), pyStartsWith (pyStrip line) ("INTENT:") = true →
        intentTypeOfString (pyLower (pyStrip (pyReplace (pyStrip line) ("INTENT:") ("")))) = none) →
      (parseLLMResponse resp original english).type = IntentType.general) := by
  refine ⟨?_, fun resp original english => rfl, ?_⟩
  · intro chatF mk text etext
    refine ⟨?_, ?_, ?_⟩
    · unfold IntentDetector.detect
      cases hk : keywordDetect (analysisText text etext) with
      | some it =>
        dsimp only
        by_cases hu : it = IntentType.unknown
        · rw [if_pos hu]
          rw [show detectFallback true (some chatF) mk text etext =
            llmDetect true (some chatF) mk text (pyOr etext text) from rfl, llmDetect_handle_ok]
          cases hc : chatF (classifyPrompt (pyOr etext text)) <;> simp only [hc] <;>
            exact ⟨_, rfl⟩
        · rw [if_neg hu]
          exact ⟨_, rfl⟩
      | none =>
        rw [show detectFallback true (some chatF) mk text etext =
          llmDetect true (some chatF) mk text (pyOr etext text) from rfl, llmDetect_handle_ok]
        cases hc : chatF (classifyPrompt (pyOr etext text)) <;> simp only [hc] <;>
          exact ⟨_, rfl⟩
    · intro msg hk hc
      unfold IntentDetector.detect
      simp only [hk]
      rw [show detectFallback true (some chatF) mk text etext =
        llmDetect true (some chatF) mk text (pyOr etext text) from rfl, llmDetect_handle_ok]
      simp only [hc]
    · intro resp hk hc
      unfold IntentDetector.detect
      simp only [hk]
      rw [show detectFallback true (some chatF) mk text etext =
        llmDetect true (some chatF) mk text (pyOr etext text) from rfl, llmDetect_handle_ok]
      simp only [hc]
  · intro resp original english hall
    exact parseLines_type_general (pySplit (pyStrip resp) ("\n"))
      (IntentType.general, [], ("General query")) rfl hall

/-- C7 counterexample: an error raised while lazily constructing the
fallback model is not caught anywhere in `detect` and escapes to the
caller, contradicting "`detect` never lets an exception escape". -/
theorem C7_construction_error_escapes_counterexample :
    IntentDetector.detect true none (Except.error ("construction failed")) ("zzz") none =
      Except.error ("construction failed") := by
  rfl

/-- C7 witness: concrete raising chat engine, contained and downgraded;
concrete unparseable output kept at confidence 0.85 and type general. -/
theorem C7_detect_containment_witness :
    IntentDetector.detect true (some (fun _ => Except.error ("down"))) (Except.error ("x"))
      ("zzz") none =
      Except.ok { type := IntentType.general, confidence := 0.5, entities := [],
                  original_text := "zzz", english_text := "zzz",
                  description := ("General query") } ∧
    (parseLLMResponse ("gibberish") ("zzz") ("zzz")).confidence = 0.85 ∧
    (parseLLMResponse ("gibberish") ("zzz") ("zzz")).type = IntentType.general :=
  ⟨(C7_detect_containment.1 (fun _ => Except.error ("down")) (Except.error ("x"))
      ("zzz") none).2.1 ("down") (by rfl) rfl,
    C7_detect_containment.2.1 ("gibberish") ("zzz") ("zzz"),
    C7_detect_containment.2.2 ("gibberish") ("zzz") ("zzz") (by decide)⟩

/-- C8: `aggregate` space-joins, in handler-invocation (dict insertion)
order, every fragment carrying a response field, with the fixed fallback
string when no handler produced one; and the simplified fallback path
(classify, chat handler, aggregate) returns a non-empty response for any
non-empty input. -/
theorem C8_aggregate_and_fallback :
    (∀ s : AgentState, (generateResponseAg s).final_response =
      some (if (s.agent_outputs.filterMap (fun p => p.2.response)).isEmpty
            then ("I couldn\x27t process your request.")
            else String.intercalate (" ") (s.agent_outputs.filterMap (fun p => p.2.response)))) ∧
    (∀ input language : String, input ≠ "" →
      (agentProcessSimple input language).response ≠ "") := by
  constructor
  · intro s
    unfold generateResponseAg
    rw [respFoldEq]
    rw [List.nil_append]
  · intro input language hne
    have hresp : (agentProcessSimple input language).response =
        ("[Chat Agent] I understand you said: ") ++ input := rfl
    rw [hresp]
    intro hcon
    have hlen := congrArg String.length hcon
    rw [String.length_append] at hlen
    have h1 : ("[Chat Agent] I understand you said: ").length = 36 := rfl
    have h2 : ("" : String).length = 0 := rfl
    rw [h1, h2] at hlen
    omega

/-- C8 witness: a concrete non-empty input through the fallback path. -/
theorem C8_aggregate_and_fallback_witness :
    ("hello" : String) ≠ "" ∧ (agentProcessSimple ("hello") ("en")).response ≠ "" :=
  ⟨by decide, C8_aggregate_and_fallback.2 ("hello") ("en") (by decide)⟩

/-- C9 (amended): for every positive configured bound N, a remembered
chat call leaves at most 2·N stored messages, trimming only from the
oldest end (the stored history is a suffix of the appended one, retained
order unchanged), and clearing the history resets it to the empty list.
For N = 0 the Python slice `[-0:]` keeps the whole list, so positivity
is required. -/
theorem C9_history_bounded :
    ∀ (n : Nat) (hist : List Message) (u a : String), 1 ≤ n →
      ((chatHistoryUpdate n hist u a).length ≤ 2 * n ∧
       List.IsSuffix (chatHistoryUpdate n hist u a)
         (hist ++ [{ role := ("user"), content := u }, { role := ("assistant"), content := a }])) ∧
      clearHistory = ([] : List Message) := by
  intro n hist u a hn
  unfold chatHistoryUpdate pySliceLast
  set h2 := hist ++ [({ role := ("user"), content := u } : Message),
    { role := ("assistant"), content := a }] with hh
  refine ⟨⟨?_, ?_⟩, rfl⟩
  · by_cases hc : n * 2 < h2.length
    · rw [if_pos hc, if_neg (by omega : ¬ n * 2 = 0), List.length_drop]
      omega
    · rw [if_neg hc]
      omega
  · by_cases hc : n * 2 < h2.length
    · rw [if_pos hc, if_neg (by omega : ¬ n * 2 = 0)]
      exact List.drop_suffix _ _
    · rw [if_neg hc]

/-- C9 witness: bound, suffix and clearing at N = 1 on an empty
history. -/
theorem C9_history_bounded_witness :
    1 ≤ 1 ∧
    (((chatHistoryUpdate 1 [] ("hi") ("yo")).length ≤ 2 * 1 ∧
      List.IsSuffix (chatHistoryUpdate 1 [] ("hi") ("yo"))
        ([] ++ [{ role := ("user"), content := "hi" }, { role := ("assistant"), content := "yo" }])) ∧
     clearHistory = ([] : List Message)) :=
  ⟨by decide, C9_history_bounded 1 [] ("hi") ("yo") (by decide)⟩

/-- C9 counterexample: with the bound configured to 0 the trimming slice
`[-0:]` is the whole list, so one remembered call stores 2 messages,
exceeding the claimed bound of 2·0. -/
theorem C9_zero_bound_counterexample :
    (chatHistoryUpdate 0 [] ("hi") ("yo")).length = 2 ∧
    ¬ ((chatHistoryUpdate 0 [] ("hi") ("yo")).length ≤ 2 * 0) := by
  decide

/-- C2 witness: a successful run has success true and error unset. -/
theorem C2_success_iff_error_set_witness :
    (process false none engOkA t7 none (some ("hi")) ("ml")).success = true ∧
    (process false none engOkA t7 none (some ("hi")) ("ml")).error = none :=
  ⟨rfl, (C2_success_iff_error_set false none engOkA t7 none (some ("hi")) ("ml")).2 rfl⟩
